import Mathlib

/-!
Verification development for the dani-frontend chat client.

The definitions below are a shallow embedding of the streaming chat
reducer, the conversation store operations, the edit/truncate flow and
the SSE line processing of the repository.  The primary source is
`src/app/chat/page.tsx` (the live `/chat` route); the delete handler of
`src/components/chat/ChatContent.tsx` is embedded separately where the
two variants differ.  JavaScript numbers that the reducer only copies
around (scores, millisecond timings) are modelled as `Int`; JavaScript
`undefined`/`null` are modelled as `Option.none`; JS truthiness of
strings and numbers is made explicit where the code relies on it.
-/

namespace Dani

/-- Frontend citation entity (`Source` in `types`): nullable fields are
`Option`, `speakers` is a plain list. -/
structure Source where
  title : Option String
  date : Option String
  transcript_id : Option String
  speakers : List String
  text_preview : String
  relevance_score : Option Int
deriving Repr, DecidableEq

/-- One element of `ToolResultData.sources` in the API layer:
`Array<{ title: string; date?: string; score?: number }>`. -/
structure ToolSource where
  title : String
  date : Option String
  score : Option Int
deriving Repr, DecidableEq

/-- Payload of a `tool_result` chunk (`ToolResultData` in the API
layer); only the fields the reducer reads or copies are modelled. -/
structure ToolResultData where
  content : Option String
  image : Option String
  sources : Option (List ToolSource)
deriving Repr, DecidableEq

/-- Timing payload of a `timing` chunk (`TimingData` in the API layer). -/
structure TimingData where
  retrieval_ms : Int
  prompt_ms : Int
  generation_ms : Int
  total_ms : Int
  chunks_used : Int
  tokens_generated : Int
deriving Repr, DecidableEq

/-- Confidence level enum (`"high" | "medium" | "low" | "none"`). -/
inductive ConfidenceLevel where
  | high
  | medium
  | low
  | none
deriving Repr, DecidableEq

/-- Confidence payload of a `confidence` chunk. -/
structure ConfidenceData where
  level : ConfidenceLevel
  avg_score : Int
  top_score : Int
  chunk_count : Int
  should_fallback : Bool
deriving Repr, DecidableEq

/-- Per-message timing breakdown (`MessageTimings` in `types`). -/
structure MessageTimings where
  retrieval_ms : Option Int
  generation_ms : Option Int
  total_ms : Option Int
  prompt_build_ms : Option Int
deriving Repr, DecidableEq

/-- Wire protocol unit: the `StreamChunk` tagged union of the API
layer, as a sum type keyed on `type`.  Optional fields of the TS
interface are `Option`; variants the reducer ignores (`answer`,
`rewrite`) carry nothing the reducer reads. -/
inductive StreamChunk where
  | meta (conversation_id : Option String) (user_message_id : Option String)
  | sources (content : List Source)
  | token (content : Option String)
  | answer (content : Option String)
  | timing (content : TimingData)
  | confidence (content : ConfidenceData) (disclaimer : Option String)
  | tool_call (tool : Option String) (args : Option (List (String × String)))
  | tool_progress (message : Option String)
  | tool_result (data : Option ToolResultData)
  | tool_error (error : Option String)
  | rewrite
deriving Repr, DecidableEq

/-- ToolState status values (`'starting' | 'processing' | 'complete' | 'error'`). -/
inductive ToolStatus where
  | starting
  | processing
  | complete
  | error
deriving Repr, DecidableEq

/-- Ephemeral UI tool state (the `toolState` object in `page.tsx`):
every field except `isActive` is optional. -/
structure ToolState where
  isActive : Bool
  toolName : Option String
  status : Option ToolStatus
  message : Option String
  args : Option (List (String × String))
  result : Option ToolResultData
  error : Option String
deriving Repr, DecidableEq

/-- The reset value `setToolState({ isActive: false })`: all other
fields become `undefined`. -/
def ToolState.inactive : ToolState :=
  { isActive := false, toolName := none, status := none, message := none,
    args := none, result := none, error := none }

/-- One entry of a message's `pairedHistory`. -/
structure PairedEntry where
  userContent : String
  assistantContent : String
deriving Repr, DecidableEq

/-- Message roles. -/
inductive Role where
  | user
  | assistant
  | system
  | tool
deriving Repr, DecidableEq

/-- Chat message entity (`Message` in `types`); timestamps are
modelled as `Nat`.  The optional `pairedHistory` array is modelled as a
plain list because the code always reads it through
`originalMessage.pairedHistory || []`. -/
structure Message where
  id : String
  content : String
  role : Role
  timestamp : Nat
  sources : List Source := []
  confidence : Option ConfidenceData := none
  disclaimer : Option String := none
  timings : Option MessageTimings := none
  toolResult : Option ToolResultData := none
  toolName : Option String := none
  pairedHistory : List PairedEntry := []
deriving Repr, DecidableEq

/-- Conversation entity (`Conversation` in `types`); timestamps as `Nat`. -/
structure Conversation where
  id : String
  title : String
  messages : List Message
  createdAt : Nat
  updatedAt : Nat
deriving Repr, DecidableEq

/-- JS `String.prototype.startsWith`, written on the character lists of
the strings so that it evaluates by kernel reduction. -/
def strStartsWith (s pre : String) : Bool :=
  pre.data.isPrefixOf s.data

/-- JS truthiness of an optional string: `undefined` and `""` are falsy. -/
def truthyStr : Option String → Bool
  | some s => !(s == "")
  | none => false

/-- The JS string coercion performed by `fullContent += chunk.content as
string` when `content` is absent: `"" + undefined` is `"undefined"`. -/
def jsTokenText : Option String → String
  | some s => s
  | none => "undefined"

/-- The JS expression `s.score || null`: both `undefined` and `0` are
falsy and collapse to `null`. -/
def jsOrNullScore : Option Int → Option Int
  | some n => if n = 0 then none else some n
  | none => none

/-- The per-element mapping applied to `chunk.data.sources` inside the
`tool_result` branch of `handleSendMessage` in `page.tsx`. -/
def toolSourceToSource (s : ToolSource) : Source :=
  { title := some s.title
    date := s.date
    transcript_id := none
    speakers := []
    text_preview := "Source used for infographic generation"
    relevance_score := jsOrNullScore s.score }

/-- The guard `chunk.data && chunk.data.sources &&
Array.isArray(chunk.data.sources) && chunk.data.sources.length > 0`,
returning the guarded list when it passes. -/
def toolDataSources : Option ToolResultData → Option (List ToolSource)
  | some d =>
    match d.sources with
    | some l => if l.length > 0 then some l else none
    | none => none
  | none => none

/-- The `currentSources` value after a `tool_result` chunk: the mapped
tool sources when the guard passes, the previous value otherwise. -/
def toolResultSources (data : Option ToolResultData) (cur : List Source) :
    List Source :=
  match toolDataSources data with
  | some l => l.map toolSourceToSource
  | none => cur

/-- Accumulator state of the streaming loop in `handleSendMessage`
(`fullContent`, `backendConversationId`, `currentSources`, `timingData`,
`confidenceData`, `disclaimer`, `finalToolResult`, `finalToolName`) plus
the `toolState` UI state the loop writes through `setToolState`. -/
structure SendAcc where
  fullContent : String
  backendConversationId : Option String
  currentSources : List Source
  timingData : Option TimingData
  confidenceData : Option ConfidenceData
  disclaimer : Option String
  finalToolResult : Option ToolResultData
  finalToolName : Option String
  toolState : ToolState
deriving Repr, DecidableEq

/-- Initial accumulator state at the top of the `try` block (the tool
state was reset to inactive in the previous `finally`). -/
def SendAcc.init : SendAcc :=
  { fullContent := "", backendConversationId := none, currentSources := [],
    timingData := none, confidenceData := none, disclaimer := none,
    finalToolResult := none, finalToolName := none,
    toolState := ToolState.inactive }

/-- One iteration of `for await (const chunk of parseStreamResponse(...))`
in `handleSendMessage` of `page.tsx`, restricted to the accumulator and
tool state.  (The `meta` branch additionally rewrites the provisional
user-message ID inside the conversation store; that store-level effect
is not part of the accumulator.) -/
def sendStep (acc : SendAcc) (c : StreamChunk) : SendAcc :=
  match c with
  | .meta cid _umid =>
    { acc with
      backendConversationId :=
        if truthyStr cid then cid else acc.backendConversationId }
  | .sources content => { acc with currentSources := content }
  | .token content =>
    { acc with fullContent := acc.fullContent ++ jsTokenText content }
  | .answer _ => acc
  | .timing content => { acc with timingData := some content }
  | .confidence content disc =>
    { acc with confidenceData := some content, disclaimer := disc }
  | .tool_call tool args =>
    { acc with
      toolState :=
        { isActive := true, toolName := tool, status := some .starting,
          message := none, args := args, result := none, error := none }
      finalToolName := tool }
  | .tool_progress msg =>
    { acc with
      toolState :=
        { acc.toolState with status := some .processing, message := msg } }
  | .tool_result data =>
    { acc with
      currentSources := toolResultSources data acc.currentSources
      toolState :=
        { acc.toolState with status := some .complete, result := data }
      finalToolResult := data }
  | .tool_error err =>
    { acc with
      toolState :=
        { acc.toolState with status := some .error, error := err } }
  | .rewrite => acc

/-- Folding the whole chunk sequence of one turn through the loop body. -/
def sendFold (chunks : List StreamChunk) : SendAcc :=
  chunks.foldl sendStep SendAcc.init

/-- The fixed fallback string used when neither tokens nor a tool
result arrived. -/
def fallbackContent : String := "I received your message but had no response."

/-- The content expression of the finalized assistant message:
`fullContent || (finalToolResult ? "" : "I received your message but had
no response.")` with JS falsiness of the empty string made explicit. -/
def finalContent (acc : SendAcc) : String :=
  if acc.fullContent = "" then
    if acc.finalToolResult.isSome then "" else fallbackContent
  else acc.fullContent

/-- The finalized assistant `Message` built after the streaming loop
(`aiResponse` in `handleSendMessage`); `id` and `ts` stand for the
generated UUID and `new Date()`. -/
def finalizeMessage (id : String) (ts : Nat) (acc : SendAcc) : Message :=
  { id := id
    content := finalContent acc
    role := .assistant
    timestamp := ts
    sources := acc.currentSources
    confidence := acc.confidenceData
    disclaimer := acc.disclaimer
    timings := acc.timingData.map (fun t =>
      { retrieval_ms := some t.retrieval_ms
        generation_ms := some t.generation_ms
        total_ms := some t.total_ms
        prompt_build_ms := some t.prompt_ms })
    toolResult := acc.finalToolResult
    toolName := acc.finalToolName }

/-- In-order concatenation of the payloads of all `token` chunks of a
sequence (with the JS coercion for an absent payload). -/
def tokenConcat : List StreamChunk → String
  | [] => ""
  | .token c :: rest => jsTokenText c ++ tokenConcat rest
  | _ :: rest => tokenConcat rest

/-- Whether a chunk is a `token` chunk. -/
def isTokenChunk : StreamChunk → Bool
  | .token _ => true
  | _ => false

/-- Whether a chunk is a `tool_result` chunk. -/
def isToolResultChunk : StreamChunk → Bool
  | .tool_result _ => true
  | _ => false

/-- The `data` field of the last `tool_result` chunk of the sequence,
if any `tool_result` chunk occurs (the outer `Option` is occurrence,
the inner one the optional `data` payload). -/
def lastToolData : List StreamChunk → Option (Option ToolResultData)
  | [] => none
  | c :: rest =>
    match lastToolData rest with
    | some x => some x
    | none =>
      match c with
      | .tool_result d => some d
      | _ => none

/-- Chunks that leave the `currentSources` accumulator untouched:
everything except a `sources` chunk and a `tool_result` chunk that
passes the non-empty-sources guard. -/
def preservesSources : StreamChunk → Bool
  | .sources _ => false
  | .tool_result d => (toolDataSources d).isNone
  | _ => true

/-- The ToolState status a chunk assigns, if it is one of the four
tool-lifecycle chunk types. -/
def chunkToolStatus : StreamChunk → Option ToolStatus
  | .tool_call _ _ => some .starting
  | .tool_progress _ => some .processing
  | .tool_result _ => some .complete
  | .tool_error _ => some .error
  | _ => none

/-- Whether a chunk is one of the four tool-lifecycle chunk types. -/
def isToolChunk (c : StreamChunk) : Bool :=
  (chunkToolStatus c).isSome

/-- Whether a chunk is a `tool_call` chunk. -/
def isToolCall : StreamChunk → Bool
  | .tool_call _ _ => true
  | _ => false

/-- Whether a chunk is a `tool_progress` chunk. -/
def isToolProgress : StreamChunk → Bool
  | .tool_progress _ => true
  | _ => false

/-- Whether a chunk is a terminal tool-lifecycle chunk
(`tool_result` or `tool_error`). -/
def isToolTerminal : StreamChunk → Bool
  | .tool_result _ => true
  | .tool_error _ => true
  | _ => false

/-- The sequence of ToolState `status` values produced by the reducer's
tool-lifecycle transitions: after each chunk that triggers a
`setToolState` call, the status stored in the updated state is
recorded. -/
def toolTraceFrom (acc : SendAcc) : List StreamChunk → List ToolStatus
  | [] => []
  | c :: rest =>
    let acc2 := sendStep acc c
    if isToolChunk c then
      acc2.toolState.status.toList ++ toolTraceFrom acc2 rest
    else
      toolTraceFrom acc2 rest

/-- A list of tool-lifecycle chunks matching `tool_progress*` followed
by at most one terminal chunk. -/
def progressThenTerminal : List StreamChunk → Bool
  | [] => true
  | c :: rest =>
    if isToolProgress c then progressThenTerminal rest
    else isToolTerminal c && rest.isEmpty

/-- Protocol shape of the tool-lifecycle chunks of one turn: either no
tool chunks at all, or exactly one leading `tool_call` followed by
`tool_progress*` and at most one terminal chunk. -/
def toolSeqOk : List StreamChunk → Bool
  | [] => true
  | c :: rest => isToolCall c && progressThenTerminal rest

/-- A status list matching `processing*` followed by at most one
terminal status. -/
def procThenTerm : List ToolStatus → Bool
  | [] => true
  | s :: rest =>
    match s with
    | .processing => procThenTerm rest
    | .complete => rest.isEmpty
    | .error => rest.isEmpty
    | .starting => false

/-- A status list that follows the lifecycle chain
`starting -> processing* -> (complete | error)`, possibly stopping
early. -/
def statusChainOk : List ToolStatus → Bool
  | [] => true
  | s :: rest => (s == ToolStatus.starting) && procThenTerm rest

/-- The edit flow's truncation step (`handleEditMessage`, steps before
the API call): locate the edited message by ID, capture the following
assistant message's content, truncate to and including the edited
message, push the old pair onto `pairedHistory` and overwrite the
content.  `none` models the early `return` when the ID is not found. -/
def truncateForEdit (msgs : List Message) (messageId newContent : String) :
    Option (List Message) :=
  match msgs.findIdx? (fun m => m.id == messageId) with
  | none => none
  | some i =>
    match msgs[i]? with
    | none => none
    | some orig =>
      let oldAssistantContent :=
        match msgs[i + 1]? with
        | some m => if m.role == Role.assistant then m.content else ""
        | none => ""
      let updated :=
        { orig with
          content := newContent
          pairedHistory := orig.pairedHistory ++
            [{ userContent := orig.content
               assistantContent := oldAssistantContent }] }
      some ((msgs.take (i + 1)).set i updated)

/-- The message array of the current conversation at the end of a whole
edit turn (`handleEditMessage`): truncation, then the streaming request.
If the request throws (`Except.error`), the `catch` block only logs, so
nothing is appended; on success the finalized assistant message is
appended. -/
def editTurnMessages (msgs : List Message) (messageId newContent : String)
    (stream : Except String (List StreamChunk)) (newId : String) (ts : Nat) :
    List Message :=
  match truncateForEdit msgs messageId newContent with
  | none => msgs
  | some truncated =>
    match stream with
    | .ok chunks => truncated ++ [finalizeMessage newId ts (sendFold chunks)]
    | .error _ => truncated

/-- The per-conversation step of ID promotion: a conversation whose ID
has the reserved `temp-` prefix gets its ID rewritten to the
backend-assigned one, all other fields untouched. -/
def promoteConv (newId : String) (conv : Conversation) : Conversation :=
  if strStartsWith conv.id "temp-" then { conv with id := newId } else conv

/-- The conversation-ID promotion performed after the stream ends for a
new conversation: the `setConversations(prev => prev.map(...))` call
rewriting every `temp-` conversation ID in place. -/
def promoteProvisional (newId : String) (convs : List Conversation) :
    List Conversation :=
  convs.map (promoteConv newId)

/-- The delete handler of `page.tsx`: optimistic removal, and the
`catch` block does not restore anything, so the result does not depend
on whether the backend call succeeded. -/
def deleteConversationPage (convs : List Conversation) (cid : String)
    (_backendOk : Bool) : List Conversation :=
  convs.filter (fun c => !(c.id == cid))

/-- The delete handler of `ChatContent.tsx`: temp conversations are
removed locally without a backend call; otherwise the conversation is
captured, removed optimistically, and re-inserted at the head of the
list when the backend delete fails. -/
def deleteConversationCC (convs : List Conversation) (cid : String)
    (backendOk : Bool) : List Conversation :=
  if strStartsWith cid "temp-" then
    convs.filter (fun c => !(c.id == cid))
  else
    let removed := convs.filter (fun c => !(c.id == cid))
    if backendOk then removed
    else
      match convs.find? (fun c => c.id == cid) with
      | some conv => conv :: removed
      | none => removed

/-- The per-line processing of `parseStreamResponse`: for each complete
SSE frame, a line with the `data: ` prefix has the prefix sliced off
and is handed to `JSON.parse` (the external `decode` collaborator); a
parse failure is logged and skipped, any other line is ignored. -/
def processLines (decode : String → Option StreamChunk)
    (lines : List String) : List StreamChunk :=
  lines.filterMap (fun line =>
    if strStartsWith line "data: " then decode (line.drop 6) else none)

/-! ### Concrete demonstration values used by witnesses and counterexamples -/

/-- A concrete user message. -/
def demoU1 : Message :=
  { id := "u1", content := "hello", role := .user, timestamp := 1 }

/-- A concrete assistant message following `demoU1`. -/
def demoA1 : Message :=
  { id := "a1", content := "resp", role := .assistant, timestamp := 2 }

/-- A second concrete user message. -/
def demoU2 : Message :=
  { id := "u2", content := "more", role := .user, timestamp := 3 }

/-- A second concrete assistant message. -/
def demoA2 : Message :=
  { id := "a2", content := "resp2", role := .assistant, timestamp := 4 }

/-- A concrete citation as delivered by a `sources` chunk. -/
def demoSource : Source :=
  { title := some "A", date := none, transcript_id := none, speakers := [],
    text_preview := "p", relevance_score := some 1 }

/-- A concrete tool-result source entry. -/
def demoToolSource : ToolSource :=
  { title := "T", date := none, score := some 50 }

/-- A concrete conversation with a given ID. -/
def demoConv (i : String) : Conversation :=
  { id := i, title := "t", messages := [], createdAt := 0, updatedAt := 0 }

/-- A concrete stand-in for `JSON.parse`: decodes the payload `tok` to
a token chunk and fails on everything else. -/
def demoDecode : String → Option StreamChunk :=
  fun s => if s == "tok" then some (.token (some "hi")) else none

/-! ### Lemmas about the streaming fold -/

/-- The running content buffer accumulates exactly the in-order
concatenation of the token payloads. -/
theorem foldl_sendStep_fullContent (chunks : List StreamChunk) :
    ∀ acc : SendAcc,
      (List.foldl sendStep acc chunks).fullContent =
        acc.fullContent ++ tokenConcat chunks := by
  induction chunks with
  | nil => intro acc; simp [tokenConcat]
  | cons c rest ih =>
    intro acc
    cases c <;>
      simp [List.foldl_cons, sendStep, tokenConcat, ih, String.append_assoc]

/-- The content buffer of a whole turn is the token concatenation. -/
theorem sendFold_fullContent (chunks : List StreamChunk) :
    (sendFold chunks).fullContent = tokenConcat chunks := by
  have h := foldl_sendStep_fullContent chunks SendAcc.init
  simpa [sendFold, SendAcc.init] using h

/-- A sequence with no token chunks has an empty token concatenation. -/
theorem tokenConcat_eq_empty (chunks : List StreamChunk)
    (h : ∀ c ∈ chunks, isTokenChunk c = false) : tokenConcat chunks = "" := by
  induction chunks with
  | nil => rfl
  | cons c rest ih =>
    have hc := h c (by simp)
    have hrest : ∀ x ∈ rest, isTokenChunk x = false :=
      fun x hx => h x (by simp [hx])
    cases c <;> simp [isTokenChunk] at hc <;> simp [tokenConcat, ih hrest]

/-- A single reducer step on a chunk that passes `preservesSources`
leaves `currentSources` unchanged. -/
theorem sendStep_preservesSources (acc : SendAcc) (c : StreamChunk)
    (h : preservesSources c = true) :
    (sendStep acc c).currentSources = acc.currentSources := by
  cases c <;>
    simp_all [sendStep, preservesSources, toolResultSources,
      Option.isNone_iff_eq_none]

/-- Folding over chunks that all pass `preservesSources` leaves
`currentSources` unchanged. -/
theorem foldl_sources_preserved (post : List StreamChunk) :
    ∀ acc : SendAcc, (∀ c ∈ post, preservesSources c = true) →
      (List.foldl sendStep acc post).currentSources = acc.currentSources := by
  induction post with
  | nil => intro acc _; rfl
  | cons c rest ih =>
    intro acc h
    have hc := h c (by simp)
    have hrest : ∀ x ∈ rest, preservesSources x = true :=
      fun x hx => h x (by simp [hx])
    rw [List.foldl_cons, ih _ hrest, sendStep_preservesSources acc c hc]

/-- The accumulated `finalToolResult` is the `data` field of the last
`tool_result` chunk, defaulting to the incoming value. -/
theorem foldl_sendStep_finalToolResult (chunks : List StreamChunk) :
    ∀ acc : SendAcc,
      (List.foldl sendStep acc chunks).finalToolResult =
        (lastToolData chunks).getD acc.finalToolResult := by
  induction chunks with
  | nil => intro acc; rfl
  | cons c rest ih =>
    intro acc
    rw [List.foldl_cons, ih]
    cases hrest : lastToolData rest with
    | some x => simp [lastToolData, hrest]
    | none => cases c <;> simp [lastToolData, hrest, sendStep]

/-- A sequence without `tool_result` chunks has no last tool data. -/
theorem lastToolData_eq_none (chunks : List StreamChunk)
    (h : ∀ c ∈ chunks, isToolResultChunk c = false) :
    lastToolData chunks = none := by
  induction chunks with
  | nil => rfl
  | cons c rest ih =>
    have hc := h c (by simp)
    have hrest : ∀ x ∈ rest, isToolResultChunk x = false :=
      fun x hx => h x (by simp [hx])
    cases c <;> simp [isToolResultChunk] at hc <;>
      simp [lastToolData, ih hrest]

/-- The status trace the reducer produces is the per-chunk status map
over the tool-lifecycle chunks: each of the four tool chunk types
assigns its status independently of the previous state. -/
theorem toolTraceFrom_eq_filterMap (chunks : List StreamChunk) :
    ∀ acc : SendAcc,
      toolTraceFrom acc chunks = chunks.filterMap chunkToolStatus := by
  induction chunks with
  | nil => intro acc; rfl
  | cons c rest ih =>
    intro acc
    cases c <;>
      simp [toolTraceFrom, isToolChunk, chunkToolStatus, sendStep, ih,
        List.filterMap_cons, Option.toList]

/-- Restricting the status map to the tool-lifecycle chunks first does
not change it. -/
theorem filterMap_status_filter (chunks : List StreamChunk) :
    (chunks.filter isToolChunk).filterMap chunkToolStatus =
      chunks.filterMap chunkToolStatus := by
  induction chunks with
  | nil => rfl
  | cons c rest ih =>
    cases c <;>
      simp [List.filter_cons, List.filterMap_cons, isToolChunk,
        chunkToolStatus, ih]

/-- A `tool_progress*`-then-terminal chunk list maps to a
`processing*`-then-terminal status list. -/
theorem progressThenTerminal_filterMap (l : List StreamChunk) :
    progressThenTerminal l = true →
      procThenTerm (l.filterMap chunkToolStatus) = true := by
  induction l with
  | nil => intro _; rfl
  | cons c rest ih =>
    intro h
    cases c <;>
      simp [progressThenTerminal, isToolProgress, isToolTerminal] at h <;>
      simp [List.filterMap_cons, chunkToolStatus, procThenTerm] <;>
      simp_all [List.isEmpty_iff]

/-- A `tool_progress*`-then-terminal chunk list contains no
`tool_call` chunk. -/
theorem progressThenTerminal_no_call (l : List StreamChunk) :
    progressThenTerminal l = true →
      l.filter isToolCall = [] := by
  induction l with
  | nil => intro _; rfl
  | cons c rest ih =>
    intro h
    cases c <;>
      simp [progressThenTerminal, isToolProgress, isToolTerminal] at h <;>
      simp_all [List.filter_cons, isToolCall, List.isEmpty_iff]

/-- A `processing*`-then-terminal status list carries at most one
terminal status in total. -/
theorem procThenTerm_count (l : List ToolStatus) :
    procThenTerm l = true →
      l.count ToolStatus.complete + l.count ToolStatus.error ≤ 1 := by
  induction l with
  | nil => intro _; simp
  | cons s rest ih =>
    intro h
    cases s with
    | starting => simp [procThenTerm] at h
    | processing =>
      have h2 : procThenTerm rest = true := by simpa [procThenTerm] using h
      have := ih h2
      simp [List.count_cons]
      omega
    | complete =>
      have h2 : rest = [] := by
        simpa [procThenTerm, List.isEmpty_iff] using h
      subst h2
      simp [List.count_cons]
    | error =>
      have h2 : rest = [] := by
        simpa [procThenTerm, List.isEmpty_iff] using h
      subst h2
      simp [List.count_cons]

/-- A chain-conforming status trace carries at most one terminal
status in total. -/
theorem statusChainOk_count (l : List ToolStatus) :
    statusChainOk l = true →
      l.count ToolStatus.complete + l.count ToolStatus.error ≤ 1 := by
  cases l with
  | nil => intro _; simp
  | cons s rest =>
    intro h
    have hs : s = ToolStatus.starting ∧ procThenTerm rest = true := by
      simpa [statusChainOk, Bool.and_eq_true] using h
    obtain ⟨hs1, hs2⟩ := hs
    subst hs1
    have := procThenTerm_count rest hs2
    simp [List.count_cons]
    omega

/-! ### Claim theorems -/

/-- C1 (counterexample): one token chunk whose string payload is the
empty string satisfies the claim hypotheses (n = 1, t1 a string), yet
the finalized content is the fallback string, not the concatenation of
the token payloads. -/
theorem token_ordering_counterexample :
    (finalizeMessage "m" 0 (sendFold [StreamChunk.token (some "")])).content
      ≠ tokenConcat [StreamChunk.token (some "")] := by
  decide

/-- C1 (amended): for every finite chunk sequence whose in-order
concatenation of token payloads is non-empty, the finalized assistant
message content equals exactly that concatenation, regardless of
interleaved non-token chunks. -/
theorem token_ordering (chunks : List StreamChunk) (id : String) (ts : Nat)
    (h : tokenConcat chunks ≠ "") :
    (finalizeMessage id ts (sendFold chunks)).content = tokenConcat chunks := by
  have hfc := sendFold_fullContent chunks
  simp [finalizeMessage, finalContent, hfc, h]

/-- C1 (witness): the amended theorem applied to a concrete turn with
two token chunks around a non-token chunk. -/
theorem token_ordering_witness :
    tokenConcat [StreamChunk.token (some "ab"), StreamChunk.rewrite,
      StreamChunk.token (some "cd")] ≠ "" ∧
    (finalizeMessage "m" 0 (sendFold [StreamChunk.token (some "ab"),
      StreamChunk.rewrite, StreamChunk.token (some "cd")])).content =
      tokenConcat [StreamChunk.token (some "ab"), StreamChunk.rewrite,
        StreamChunk.token (some "cd")] :=
  ⟨by decide,
   token_ordering [StreamChunk.token (some "ab"), StreamChunk.rewrite,
     StreamChunk.token (some "cd")] "m" 0 (by decide)⟩

/-- C2 (counterexample): a `sources` chunk with list A followed by a
`tool_result` chunk with non-empty sources B satisfies the claim
hypotheses, but when a further `sources` chunk follows, the finalized
source list is that last list (here again A), not the mapping of B. -/
theorem sources_precedence_counterexample :
    (finalizeMessage "m" 0 (sendFold
      [StreamChunk.sources [demoSource],
       StreamChunk.tool_result
         (some { content := none, image := none,
                 sources := some [demoToolSource] }),
       StreamChunk.sources [demoSource]])).sources = [demoSource] ∧
    [demoSource] ≠ [demoToolSource].map toolSourceToSource := by
  exact ⟨by decide, by decide⟩

/-- C2 (amended): when the `tool_result` chunk carrying the non-empty
sources array B is not followed by any further chunk that modifies the
current-sources list, the finalized message's source list equals the
per-element mapping of B (scores copied without re-normalization), and
in particular not the payload of any earlier `sources` chunk. -/
theorem sources_precedence (pre mid post : List StreamChunk)
    (A : List Source) (d : ToolResultData) (B : List ToolSource)
    (id : String) (ts : Nat)
    (hB : d.sources = some B) (hne : B ≠ [])
    (hpost : ∀ c ∈ post, preservesSources c = true) :
    (finalizeMessage id ts (sendFold
      (pre ++ [StreamChunk.sources A] ++ mid ++
        [StreamChunk.tool_result (some d)] ++ post))).sources
      = B.map toolSourceToSource := by
  have hlen : B.length > 0 := by
    cases B with
    | nil => exact absurd rfl hne
    | cons b bs => simp
  have hguard : toolDataSources (some d) = some B := by
    simp [toolDataSources, hB, hlen]
  have hmain : (sendFold
      (pre ++ [StreamChunk.sources A] ++ mid ++
        [StreamChunk.tool_result (some d)] ++ post)).currentSources
      = B.map toolSourceToSource := by
    rw [sendFold, List.foldl_append, foldl_sources_preserved post _ hpost,
      List.foldl_append]
    simp [sendStep, toolResultSources, hguard]
  simpa [finalizeMessage] using hmain

/-- C2 (witness): the amended theorem applied to a concrete turn where
the sources chunk precedes the tool result and nothing follows. -/
theorem sources_precedence_witness :
    ({ content := none, image := none,
       sources := some [demoToolSource] } : ToolResultData).sources =
      some [demoToolSource] ∧
    (finalizeMessage "m" 0 (sendFold
      ([] ++ [StreamChunk.sources [demoSource]] ++ [] ++
        [StreamChunk.tool_result
          (some { content := none, image := none,
                  sources := some [demoToolSource] })] ++ []))).sources
      = [demoToolSource].map toolSourceToSource :=
  ⟨by decide,
   sources_precedence [] [] [] [demoSource]
     { content := none, image := none, sources := some [demoToolSource] }
     [demoToolSource] "m" 0 (by decide) (by decide) (by decide)⟩

/-- C3 (counterexample): a turn whose only chunk is a `tool_result`
with an absent `data` payload has no token chunks and does see a
`tool_result` chunk, yet its finalized content is the fallback string
rather than the empty string. -/
theorem empty_content_fallback_counterexample :
    (finalizeMessage "m" 0 (sendFold [StreamChunk.tool_result none])).content
        = fallbackContent ∧
    fallbackContent ≠ "" := by
  exact ⟨by decide, by decide⟩

/-- C3 (amended): with no token chunks, the finalized content is the
fallback string when no `tool_result` chunk arrives; it is the empty
string when the last `tool_result` chunk carries a `data` payload; and
it is again the fallback string when the last `tool_result` chunk has
no `data` payload. -/
theorem empty_content_fallback (chunks : List StreamChunk)
    (id : String) (ts : Nat)
    (hnt : ∀ c ∈ chunks, isTokenChunk c = false) :
    ((∀ c ∈ chunks, isToolResultChunk c = false) →
      (finalizeMessage id ts (sendFold chunks)).content = fallbackContent) ∧
    (∀ d : ToolResultData, lastToolData chunks = some (some d) →
      (finalizeMessage id ts (sendFold chunks)).content = "") ∧
    (lastToolData chunks = some none →
      (finalizeMessage id ts (sendFold chunks)).content = fallbackContent) := by
  have hfc : (sendFold chunks).fullContent = "" := by
    rw [sendFold_fullContent, tokenConcat_eq_empty chunks hnt]
  have hft : (sendFold chunks).finalToolResult =
      (lastToolData chunks).getD none := by
    have h := foldl_sendStep_finalToolResult chunks SendAcc.init
    simpa [sendFold, SendAcc.init] using h
  refine ⟨?_, ?_, ?_⟩
  · intro h
    have hnone : lastToolData chunks = none := lastToolData_eq_none chunks h
    simp [finalizeMessage, finalContent, hfc, hft, hnone]
  · intro d hd
    simp [finalizeMessage, finalContent, hfc, hft, hd]
  · intro hd
    simp [finalizeMessage, finalContent, hfc, hft, hd]

/-- C3 (witness): the amended theorem applied to a turn with no
relevant chunks and to a turn with a `tool_result` carrying a payload. -/
theorem empty_content_fallback_witness :
    (finalizeMessage "m" 0 (sendFold [StreamChunk.rewrite])).content =
      fallbackContent ∧
    (finalizeMessage "m" 0 (sendFold
      [StreamChunk.tool_result
        (some { content := none, image := none, sources := none })])).content
      = "" :=
  ⟨(empty_content_fallback [StreamChunk.rewrite] "m" 0 (by decide)).1
      (by decide),
   (empty_content_fallback
      [StreamChunk.tool_result
        (some { content := none, image := none, sources := none })] "m" 0
      (by decide)).2.1
      { content := none, image := none, sources := none } (by decide)⟩

/-- C4: editing the first user message of a four-message conversation
truncates the array to exactly the edited message, whose content is the
new text and whose paired history gains exactly the one entry pairing
the old content with the following assistant message's content. -/
theorem edit_truncation (U1 A1 U2 A2 : Message) (newText : String)
    (hA : A1.role = Role.assistant) :
    truncateForEdit [U1, A1, U2, A2] U1.id newText =
      some [{ U1 with
        content := newText
        pairedHistory := U1.pairedHistory ++
          [{ userContent := U1.content, assistantContent := A1.content }] }] := by
  simp [truncateForEdit, List.findIdx?_cons, hA]

/-- C4 (witness): the truncation theorem applied to a concrete
four-message conversation. -/
theorem edit_truncation_witness :
    truncateForEdit [demoU1, demoA1, demoU2, demoA2] demoU1.id "edited" =
      some [{ demoU1 with
        content := "edited"
        pairedHistory := demoU1.pairedHistory ++
          [{ userContent := demoU1.content,
             assistantContent := demoA1.content }] }] :=
  edit_truncation demoU1 demoA1 demoU2 demoA2 "edited" (by decide)

/-- C5: at the concrete failing input — an edit turn on the
conversation `[demoU1, demoA1]` whose streaming request throws a
transport error — the turn ends with the truncated array only: no
terminal assistant message of any kind is appended, contradicting the
never-silence guarantee. -/
theorem edit_turn_error_silent :
    editTurnMessages [demoU1, demoA1] "u1" "hi2"
        (Except.error "network error") "m9" 9 =
      [{ demoU1 with
        content := "hi2"
        pairedHistory := [{ userContent := "hello",
                            assistantContent := "resp" }] }] ∧
    (editTurnMessages [demoU1, demoA1] "u1" "hi2"
        (Except.error "network error") "m9" 9).length = 1 := by
  exact ⟨by decide, by decide⟩

/-- Promotion of one conversation is idempotent. -/
theorem promoteConv_idem (newId : String) (c : Conversation) :
    promoteConv newId (promoteConv newId c) = promoteConv newId c := by
  unfold promoteConv
  cases hb : strStartsWith c.id "temp-" with
  | false => simp [hb]
  | true => simp [hb]

/-- C6 (counterexample): promotion is keyed on the `temp-` prefix, not
on the specific old provisional ID.  In a store holding a stale
provisional conversation `temp-stale`, no conversation with the old
provisional ID `temp-1` exists, yet applying the promotion rewrites the
stale conversation's ID and therefore does not leave the store
unchanged. -/
theorem promotion_stale_temp_counterexample :
    ([demoConv "temp-stale"].find? (fun c => c.id == "temp-1") = none) ∧
    promoteProvisional "real" [demoConv "temp-stale"] = [demoConv "real"] ∧
    [demoConv "real"] ≠ [demoConv "temp-stale"] := by
  exact ⟨by decide, by decide, by decide⟩

/-- C6 (amended): conversation-ID promotion is idempotent, and when no
conversation carries the provisional `temp-` prefix it leaves the store
unchanged and raises no error.  (When the old provisional ID is gone
but another `temp-` conversation is present, the promotion renames that
conversation instead of being a no-op.) -/
theorem promotion_idempotent_noop (newId : String)
    (convs : List Conversation) :
    promoteProvisional newId (promoteProvisional newId convs) =
      promoteProvisional newId convs ∧
    ((∀ c ∈ convs, strStartsWith c.id "temp-" = false) →
      promoteProvisional newId convs = convs) := by
  constructor
  · simp only [promoteProvisional, List.map_map]
    exact List.map_congr_left (fun c _ => promoteConv_idem newId c)
  · induction convs with
    | nil => intro _; rfl
    | cons c rest ih =>
      intro h
      have hc := h c (by simp)
      have hrest : ∀ x ∈ rest, strStartsWith x.id "temp-" = false :=
        fun x hx => h x (by simp [hx])
      simp [promoteProvisional, List.map_cons, promoteConv, hc]
      simpa [promoteProvisional] using ih hrest

/-- C6 (witness): promotion applied twice to a store with one `temp-`
conversation, and promotion applied to a store with no provisional
conversation. -/
theorem promotion_idempotent_noop_witness :
    (promoteProvisional "real" (promoteProvisional "real"
        [demoConv "temp-1", demoConv "x"]) =
      promoteProvisional "real" [demoConv "temp-1", demoConv "x"]) ∧
    promoteProvisional "real" [demoConv "x"] = [demoConv "x"] :=
  ⟨(promotion_idempotent_noop "real" [demoConv "temp-1", demoConv "x"]).1,
   (promotion_idempotent_noop "real" [demoConv "x"]).2 (by decide)⟩

/-- Tool-call chunks survive the restriction to tool-lifecycle chunks. -/
theorem filter_call_eq (chunks : List StreamChunk) :
    (chunks.filter isToolChunk).filter isToolCall =
      chunks.filter isToolCall := by
  induction chunks with
  | nil => rfl
  | cons c rest ih =>
    cases c <;>
      simp [List.filter_cons, isToolChunk, isToolCall, chunkToolStatus, ih]

/-- C7 (counterexample): the input sequence `[tool_result, tool_error]`
produces the status trace `[complete, error]`, which does not follow
the lifecycle chain and exhibits both terminal states in one turn. -/
theorem tool_state_machine_counterexample :
    toolTraceFrom SendAcc.init
        [StreamChunk.tool_result none, StreamChunk.tool_error none] =
      [ToolStatus.complete, ToolStatus.error] ∧
    statusChainOk [ToolStatus.complete, ToolStatus.error] = false := by
  exact ⟨by decide, by decide⟩

/-- C7 (amended): for every chunk sequence whose tool-lifecycle chunks
follow the protocol pattern (at most one leading `tool_call`, then
`tool_progress*`, then at most one terminal chunk), the status trace
follows the chain `starting -> processing* -> (complete | error)`, the
sequence contains at most one `tool_call` chunk, and at most one
terminal status is ever produced. -/
theorem tool_state_machine (chunks : List StreamChunk)
    (h : toolSeqOk (chunks.filter isToolChunk) = true) :
    statusChainOk (toolTraceFrom SendAcc.init chunks) = true ∧
    (chunks.filter isToolCall).length ≤ 1 ∧
    (toolTraceFrom SendAcc.init chunks).count ToolStatus.complete +
      (toolTraceFrom SendAcc.init chunks).count ToolStatus.error ≤ 1 := by
  have htrace : toolTraceFrom SendAcc.init chunks =
      (chunks.filter isToolChunk).filterMap chunkToolStatus := by
    rw [toolTraceFrom_eq_filterMap, filterMap_status_filter]
  have hchain : statusChainOk (toolTraceFrom SendAcc.init chunks) = true := by
    rw [htrace]
    cases hf : chunks.filter isToolChunk with
    | nil => rfl
    | cons c rest =>
      rw [hf] at h
      have hc : isToolCall c = true ∧ progressThenTerminal rest = true := by
        simpa [toolSeqOk, Bool.and_eq_true] using h
      obtain ⟨hc1, hc2⟩ := hc
      have hterm := progressThenTerminal_filterMap rest hc2
      cases c <;>
        simp_all [isToolCall, List.filterMap_cons, chunkToolStatus,
          statusChainOk]
  refine ⟨hchain, ?_, ?_⟩
  · rw [← filter_call_eq]
    cases hf : chunks.filter isToolChunk with
    | nil => simp
    | cons c rest =>
      rw [hf] at h
      have hc : isToolCall c = true ∧ progressThenTerminal rest = true := by
        simpa [toolSeqOk, Bool.and_eq_true] using h
      obtain ⟨hc1, hc2⟩ := hc
      have hnone := progressThenTerminal_no_call rest hc2
      simp [List.filter_cons, hc1, hnone]
  · exact statusChainOk_count _ hchain

/-- C7 (witness): the amended theorem applied to a concrete
protocol-conforming turn with one tool call, one progress event and a
successful result. -/
theorem tool_state_machine_witness :
    toolSeqOk (([StreamChunk.token (some "x"),
      StreamChunk.tool_call (some "infographic_generator") none,
      StreamChunk.tool_progress (some "working"),
      StreamChunk.tool_result
        (some { content := none, image := none, sources := none })]).filter
        isToolChunk) = true ∧
    (statusChainOk (toolTraceFrom SendAcc.init
      [StreamChunk.token (some "x"),
       StreamChunk.tool_call (some "infographic_generator") none,
       StreamChunk.tool_progress (some "working"),
       StreamChunk.tool_result
         (some { content := none, image := none, sources := none })]) = true ∧
     (([StreamChunk.token (some "x"),
        StreamChunk.tool_call (some "infographic_generator") none,
        StreamChunk.tool_progress (some "working"),
        StreamChunk.tool_result
          (some { content := none, image := none,
                  sources := none })]).filter isToolCall).length ≤ 1 ∧
     (toolTraceFrom SendAcc.init
        [StreamChunk.token (some "x"),
         StreamChunk.tool_call (some "infographic_generator") none,
         StreamChunk.tool_progress (some "working"),
         StreamChunk.tool_result
           (some { content := none, image := none,
                   sources := none })]).count ToolStatus.complete +
       (toolTraceFrom SendAcc.init
        [StreamChunk.token (some "x"),
         StreamChunk.tool_call (some "infographic_generator") none,
         StreamChunk.tool_progress (some "working"),
         StreamChunk.tool_result
           (some { content := none, image := none,
                   sources := none })]).count ToolStatus.error ≤ 1) :=
  ⟨by decide,
   tool_state_machine
     [StreamChunk.token (some "x"),
      StreamChunk.tool_call (some "infographic_generator") none,
      StreamChunk.tool_progress (some "working"),
      StreamChunk.tool_result
        (some { content := none, image := none, sources := none })]
     (by decide)⟩

/-- C8: one `data: ` line whose payload the JSON decoder rejects is
skipped without aborting iteration, so the finalized message content is
the same as for the sequence with the malformed line absent
(`decode` stands for the external `JSON.parse` collaborator). -/
theorem malformed_frame_resilience (decode : String → Option StreamChunk)
    (pre post : List String) (badLine : String) (id : String) (ts : Nat)
    (hdata : strStartsWith badLine "data: " = true)
    (hbad : decode (badLine.drop 6) = none) :
    (finalizeMessage id ts (sendFold
      (processLines decode (pre ++ [badLine] ++ post)))).content =
    (finalizeMessage id ts (sendFold
      (processLines decode (pre ++ post)))).content := by
  have heq : processLines decode (pre ++ [badLine] ++ post) =
      processLines decode (pre ++ post) := by
    simp [processLines, List.filterMap_append, List.filterMap_cons,
      hdata, hbad]
  rw [heq]

/-- C8 (witness): a malformed frame between two well-formed token
frames, with a concrete decoder. -/
theorem malformed_frame_resilience_witness :
    strStartsWith "data: oops" "data: " = true ∧
    demoDecode ("data: oops".drop 6) = none ∧
    (finalizeMessage "m" 0 (sendFold (processLines demoDecode
      (["data: tok"] ++ ["data: oops"] ++ ["data: tok"])))).content =
    (finalizeMessage "m" 0 (sendFold (processLines demoDecode
      (["data: tok"] ++ ["data: tok"])))).content :=
  ⟨by decide, by decide,
   malformed_frame_resilience demoDecode ["data: tok"] ["data: tok"]
     "data: oops" "m" 0 (by decide) (by decide)⟩

/-- C9 (counterexample): in the chat page's delete handler, the
conversation `a` is present before deletion, the optimistic removal
happens, and after a failed backend delete (`backendOk = false`) the
conversation is still absent: nothing is rolled back. -/
theorem delete_rollback_counterexample :
    ([demoConv "a", demoConv "b"].find? (fun c => c.id == "a") =
      some (demoConv "a")) ∧
    deleteConversationPage [demoConv "a", demoConv "b"] "a" false =
      [demoConv "b"] ∧
    (deleteConversationPage [demoConv "a", demoConv "b"] "a" false).find?
      (fun c => c.id == "a") = none := by
  exact ⟨by decide, by decide, by decide⟩

/-- C9 (amended): both handlers remove the conversation optimistically,
but only the `ChatContent` variant rolls a failed backend delete back
by re-inserting the conversation (at the head of the list); the chat
page variant leaves the conversation removed regardless of the backend
outcome. -/
theorem delete_rollback (convs : List Conversation) (cid : String)
    (conv : Conversation)
    (htemp : strStartsWith cid "temp-" = false)
    (hfind : convs.find? (fun c => c.id == cid) = some conv) :
    deleteConversationCC convs cid true =
      convs.filter (fun c => !(c.id == cid)) ∧
    deleteConversationCC convs cid false =
      conv :: convs.filter (fun c => !(c.id == cid)) ∧
    deleteConversationPage convs cid false =
      convs.filter (fun c => !(c.id == cid)) := by
  simp [deleteConversationCC, deleteConversationPage, htemp, hfind]

/-- C9 (witness): the amended theorem applied to a concrete store of
two conversations. -/
theorem delete_rollback_witness :
    deleteConversationCC [demoConv "a", demoConv "b"] "a" true =
      [demoConv "a", demoConv "b"].filter (fun c => !(c.id == "a")) ∧
    deleteConversationCC [demoConv "a", demoConv "b"] "a" false =
      demoConv "a" ::
        [demoConv "a", demoConv "b"].filter (fun c => !(c.id == "a")) ∧
    deleteConversationPage [demoConv "a", demoConv "b"] "a" false =
      [demoConv "a", demoConv "b"].filter (fun c => !(c.id == "a")) :=
  delete_rollback [demoConv "a", demoConv "b"] "a" (demoConv "a")
    (by decide) (by decide)

/-- C10: a `sources` chunk replaces the current source list
unconditionally (also with an empty payload), while a `tool_result`
chunk whose guarded sources are absent or empty leaves the list
unchanged; hence `[sources A, tool_result with empty sources]`
finalizes with A and `[sources A, sources []]` finalizes empty. -/
theorem sources_replacement (acc : SendAcc) (A : List Source)
    (d : Option ToolResultData) (dEmpty : ToolResultData)
    (id : String) (ts : Nat) :
    ((sendStep acc (StreamChunk.sources A)).currentSources = A) ∧
    (toolDataSources d = none →
      (sendStep acc (StreamChunk.tool_result d)).currentSources =
        acc.currentSources) ∧
    (dEmpty.sources = some [] →
      (finalizeMessage id ts (sendFold
        [StreamChunk.sources A,
         StreamChunk.tool_result (some dEmpty)])).sources = A) ∧
    ((finalizeMessage id ts (sendFold
      [StreamChunk.sources A, StreamChunk.sources []])).sources = []) := by
  refine ⟨rfl, ?_, ?_, rfl⟩
  · intro h
    simp [sendStep, toolResultSources, h]
  · intro h
    simp [finalizeMessage, sendFold, List.foldl_cons, sendStep,
      toolResultSources, toolDataSources, h]

/-- C10 (witness): the replacement semantics at concrete inputs: an
absent tool payload, a tool payload with an empty sources array, and an
empty `sources` chunk. -/
theorem sources_replacement_witness :
    ((sendStep SendAcc.init (StreamChunk.sources [demoSource])).currentSources
      = [demoSource]) ∧
    ((sendStep SendAcc.init (StreamChunk.tool_result none)).currentSources =
      SendAcc.init.currentSources) ∧
    ((finalizeMessage "m" 0 (sendFold
      [StreamChunk.sources [demoSource],
       StreamChunk.tool_result
         (some { content := none, image := none,
                 sources := some [] })])).sources = [demoSource]) ∧
    ((finalizeMessage "m" 0 (sendFold
      [StreamChunk.sources [demoSource],
       StreamChunk.sources []])).sources = []) :=
  ⟨(sources_replacement SendAcc.init [demoSource] none
      { content := none, image := none, sources := some [] } "m" 0).1,
   (sources_replacement SendAcc.init [demoSource] none
      { content := none, image := none, sources := some [] } "m" 0).2.1
      (by decide),
   (sources_replacement SendAcc.init [demoSource] none
      { content := none, image := none, sources := some [] } "m" 0).2.2.1
      (by decide),
   (sources_replacement SendAcc.init [demoSource] none
      { content := none, image := none, sources := some [] } "m" 0).2.2.2⟩

end Dani
